import Mathlib

/-!
Shallow embedding of the reconciliation engine of `nodeimage_webdav_vercel`
(files `internal/sync/sync.go` and `main.go`).

The engine lists a NodeImage account (source) and a WebDAV folder
(destination), diffs the two listings by filename, uploads the missing
files and (in full mode) deletes the orphaned ones.  Network calls and
per-item transfer outcomes are modelled by an environment `Env` supplying
the result of each external call; the process-wide WebDAV list cache is
modelled by explicit state passing (`Option (List FileInfo)`, with `none`
playing the role of Go's `nil` slice).  The concurrent executor is
modelled by its sequential semantics: every planned item is attempted
exactly once and the success/failure counters are accumulated over the
plan lists.
-/

namespace NodeimageWebdav

/-- `nodeimage.ImageInfo` (pkg/nodeimage/client.go): one source-side image.
Only the fields the sync engine reads are modelled. -/
structure ImageInfo where
  ID : String
  Filename : String
  Size : Int
  URL : String
  deriving DecidableEq, Repr

/-- `webdav.FileInfo` (pkg/webdav/client.go): one destination-side file. -/
structure FileInfo where
  Path : String
  Size : Int
  deriving DecidableEq, Repr

/-- `sync.Config` (internal/sync/sync.go): configuration of one run. -/
structure Config where
  NodeImageCookie : String
  NodeImageAPIKey : String
  NodeImageAPIURL : String
  WebdavURL : String
  WebdavUsername : String
  WebdavPassword : String
  WebdavBasePath : String
  deriving DecidableEq, Repr

/-- `sync.Result` (internal/sync/sync.go): outcome of one run.  The Go
`error` field is modelled as an optional message; `Duration` is dropped
(wall-clock time is outside the embedding). -/
structure Result where
  Success : Bool
  Message : String
  Uploaded : Nat
  Deleted : Nat
  UploadSize : Int
  ErrMsg : Option String
  TotalNodeImageFiles : Nat
  TotalNodeImageSize : Int
  TotalWebDAVFiles : Nat
  TotalWebDAVSize : Int
  deriving DecidableEq, Repr

/-- The Go zero value of `sync.Result`, used for struct literals that omit
fields. -/
def Result.zero : Result :=
  { Success := false, Message := "", Uploaded := 0, Deleted := 0, UploadSize := 0,
    ErrMsg := none, TotalNodeImageFiles := 0, TotalNodeImageSize := 0,
    TotalWebDAVFiles := 0, TotalWebDAVSize := 0 }

/-- Go's `filepath.Base` on a Unix path: trailing slashes stripped, then the
last path element; `""` gives `"."`, an all-slash path gives `"/"`. -/
def baseName (path : String) : String :=
  if path = "" then "."
  else
    let stripped := path.data.reverse.dropWhile (· = '/')
    let name := stripped.takeWhile (· ≠ '/')
    if name = [] then "/" else String.mk name.reverse

/-- Association list standing for Go's `map[string]string`: keys are kept
unique by `insertGo`, so insertion is last-write-wins on the value. -/
abbrev StrMap := List (String × String)

/-- `m[k] = v`: replace the value if the key is present, else append. -/
def insertGo : StrMap → String → String → StrMap
  | [], k, v => [(k, v)]
  | (k', v') :: rest, k, v =>
      if k' = k then (k, v) :: rest else (k', v') :: insertGo rest k v

/-- `delete(m, k)`: drop the entry with key `k` (first match; keys are
unique in every map the engine builds). -/
def eraseGo : StrMap → String → StrMap
  | [], _ => []
  | (k', v') :: rest, k =>
      if k' = k then rest else (k', v') :: eraseGo rest k

/-- `_, exists := m[k]` / map lookup. -/
def findGo : StrMap → String → Option String
  | [], _ => none
  | (k', v') :: rest, k => if k' = k then some v' else findGo rest k

/-- `diffFiles` (internal/sync/sync.go lines 260–278): build the map
basename ↦ full path over the WebDAV listing, then walk the NodeImage
listing, uploading the names the map lacks and deleting each visited name
from the map; whatever remains in the map is the delete plan. -/
def diffFiles (nodeImageFiles : List ImageInfo) (webdavFiles : List String) :
    List ImageInfo × List String :=
  let webdavFileMap := webdavFiles.foldl (fun m f => insertGo m (baseName f) f) []
  let step := fun (acc : List ImageInfo × StrMap) (niFile : ImageInfo) =>
    let targetFilename := niFile.Filename
    let toUpload := if (findGo acc.2 targetFilename).isNone
      then acc.1 ++ [niFile] else acc.1
    (toUpload, eraseGo acc.2 targetFilename)
  let res := nodeImageFiles.foldl step ([], webdavFileMap)
  (res.1, res.2.map Prod.snd)

/-- Keys of an association map. -/
def keysOf (m : StrMap) : List String := m.map Prod.fst

/-- The `webdavFileMap` built by `diffFiles` from the WebDAV listing. -/
def buildMap (webdavFiles : List String) : StrMap :=
  webdavFiles.foldl (fun m f => insertGo m (baseName f) f) []

/-- The upload plan produced by the main loop of `diffFiles`, as a direct
recursion (proved equal to the accumulator fold below). -/
def uploadsRec : List ImageInfo → StrMap → List ImageInfo
  | [], _ => []
  | ni :: rest, m =>
    (if (findGo m ni.Filename).isNone then [ni] else []) ++
      uploadsRec rest (eraseGo m ni.Filename)

/-- The map state after the main loop of `diffFiles`. -/
def mapRec : List ImageInfo → StrMap → StrMap
  | [], m => m
  | ni :: rest, m => mapRec rest (eraseGo m ni.Filename)

/-- Sample source image used in concrete evaluations. -/
def imgX : ImageInfo :=
  { ID := "id1", Filename := "x.jpg", Size := 100, URL := "https://cdn/x.jpg" }

/-- Second sample source image. -/
def imgY : ImageInfo :=
  { ID := "id2", Filename := "y.jpg", Size := 200, URL := "https://cdn/y.jpg" }

/-- Sample destination file matching `imgX` by basename. -/
def fileX : FileInfo := { Path := "/images/x.jpg", Size := 100 }

/-- Sample orphaned destination file. -/
def fileStale : FileInfo := { Path := "/images/stale.jpg", Size := 50 }

/-- A configuration with every credential set. -/
def cfgAll : Config :=
  { NodeImageCookie := "c", NodeImageAPIKey := "k", NodeImageAPIURL := "",
    WebdavURL := "", WebdavUsername := "u", WebdavPassword := "p",
    WebdavBasePath := "/images" }

/-- Environment of one run: the outcome of every external call `RunSync`
may issue.  `Except.error e` / `some e` carry the Go error's message. -/
structure Env where
  /-- `webdavClient.Connect` -/
  connectErr : Option String
  /-- `nodeImageClient.TestConnection` (full mode only) -/
  testConnErr : Option String
  /-- `nodeImageClient.GetImageListCookie` (full mode) -/
  getImageListCookie : Except String (List ImageInfo)
  /-- `nodeImageClient.GetImageListAPIKey` (incremental mode) -/
  getImageListAPIKey : Except String (List ImageInfo)
  /-- `webdavClient.ListFilesWithStats` -/
  listWebdav : Except String (List FileInfo)
  /-- `niClient.DownloadImage` per image: `true` = succeeds -/
  downloadOk : ImageInfo → Bool
  /-- `wdClient.UploadFile` per image: `true` = succeeds -/
  putOk : ImageInfo → Bool
  /-- `webdavClient.DeleteFile` per path: `true` = succeeds -/
  deleteOk : String → Bool

/-- `uploadFile` (sync.go lines 281–294): download then upload; either
failure fails the item. -/
def uploadFileOk (env : Env) (file : ImageInfo) : Bool :=
  env.downloadOk file && env.putOk file

/-- Step-1 guard of `RunSync` (sync.go line 75): which configuration items
the selected mode requires. -/
def configMissing (config : Config) (isFullSync : Bool) : Bool :=
  (isFullSync && config.NodeImageCookie == "") ||
  (!isFullSync && config.NodeImageAPIKey == "") ||
  config.WebdavUsername == "" || config.WebdavPassword == "" ||
  config.WebdavBasePath == ""

/-- WebDAV listing step of `RunSync` (sync.go lines 120–142): full mode
first calls `InvalidateWebdavCache`; then the cache is consulted, and on a
miss a fresh listing is fetched and stored into the cache.  Returns the
listing outcome together with the cache state after this step. -/
def scanWebdav (isFullSync : Bool) (env : Env) (cache0 : Option (List FileInfo)) :
    Except String (List FileInfo) × Option (List FileInfo) :=
  let cache := if isFullSync then none else cache0
  match cache with
  | some cachedFiles => (Except.ok cachedFiles, some cachedFiles)
  | none =>
    match env.listWebdav with
    | Except.error e => (Except.error e, none)
    | Except.ok infos => (Except.ok infos, some infos)

/-- Step 3 of `RunSync` (sync.go lines 152–257): diff, mode gate on the
delete plan, empty-plan short-circuit, concurrent executor (modelled
sequentially: each planned item attempted once, counters accumulated over
the plan), conditional cache invalidation after the `wg.Wait()` barrier,
and result construction. -/
def analyzeAndExecute (isFullSync : Bool) (env : Env)
    (totalNodeImageFiles : Nat) (totalNodeImageSize : Int)
    (nodeImageFiles : List ImageInfo) (webdavFileInfos : List FileInfo)
    (cache1 : Option (List FileInfo)) : Result × Option (List FileInfo) :=
  let totalWebDAVSize := (webdavFileInfos.map FileInfo.Size).sum
  let webdavFiles := webdavFileInfos.map FileInfo.Path
  let totalWebDAVFiles := webdavFiles.length
  let diffed := diffFiles nodeImageFiles webdavFiles
  let filesToUpload := diffed.1
  let filesToDelete := if isFullSync then diffed.2 else []
  if filesToUpload.isEmpty && filesToDelete.isEmpty then
    ({ Result.zero with
        Success := true
        Message := "文件已是最新状态，无需同步。"
        TotalNodeImageFiles := totalNodeImageFiles
        TotalNodeImageSize := totalNodeImageSize
        TotalWebDAVFiles := totalWebDAVFiles
        TotalWebDAVSize := totalWebDAVSize }, cache1)
  else
    let totalUploadSize := (filesToUpload.map ImageInfo.Size).sum
    let uploadCount := (filesToUpload.filter (fun f => uploadFileOk env f)).length
    let uploadErrCount := (filesToUpload.filter (fun f => !uploadFileOk env f)).length
    let deleteCount :=
      if isFullSync then (filesToDelete.filter (fun p => env.deleteOk p)).length else 0
    let deleteErrCount :=
      if isFullSync then (filesToDelete.filter (fun p => !env.deleteOk p)).length else 0
    let cache2 := if uploadCount > 0 || deleteCount > 0 then none else cache1
    let message := "上传: " ++ toString uploadCount ++ " (失败: " ++
      toString uploadErrCount ++ "), 删除: " ++ toString deleteCount ++
      " (失败: " ++ toString deleteErrCount ++ ")"
    let base : Result :=
      { Result.zero with
          Uploaded := uploadCount
          Deleted := deleteCount
          UploadSize := totalUploadSize
          TotalNodeImageFiles := totalNodeImageFiles
          TotalNodeImageSize := totalNodeImageSize
          TotalWebDAVFiles := totalWebDAVFiles
          TotalWebDAVSize := totalWebDAVSize
          Message := message }
    if uploadErrCount > 0 || deleteErrCount > 0 then
      ({ base with
          Success := false
          ErrMsg := some ("同步过程中有 " ++ toString uploadErrCount ++
            " 个上传和 " ++ toString deleteErrCount ++ " 个删除操作失败") }, cache2)
    else
      ({ base with Success := true }, cache2)

/-- `RunSync` (sync.go lines 64–257), as a function of the run inputs, the
call environment and the current WebDAV cache; returns the `Result`
together with the cache state after the run. -/
def RunSync (config : Config) (isFullSync : Bool) (env : Env)
    (cache : Option (List FileInfo)) : Result × Option (List FileInfo) :=
  let syncMode := if isFullSync then "全量同步" else "增量同步"
  if configMissing config isFullSync then
    let err := "模式 " ++ syncMode ++ " 所需的配置未完全设置"
    ({ Result.zero with
        Success := false
        Message := err
        ErrMsg := some err }, cache)
  else
    match env.connectErr with
    | some e =>
      ({ Result.zero with
          Success := false
          Message := "连接 WebDAV 失败: " ++ e
          ErrMsg := some e }, cache)
    | none =>
      if isFullSync && env.testConnErr.isSome then
        let e := env.testConnErr.getD ""
        ({ Result.zero with
            Success := false
            Message := "连接 NodeImage 失败: " ++ e
            ErrMsg := some e }, cache)
      else
        match (if isFullSync then env.getImageListCookie else env.getImageListAPIKey) with
        | Except.error e =>
          ({ Result.zero with
              Success := false
              Message := "获取 NodeImage 文件列表失败: " ++ e
              ErrMsg := some e }, cache)
        | Except.ok nodeImageFiles =>
          let totalNodeImageSize := (nodeImageFiles.map ImageInfo.Size).sum
          let totalNodeImageFiles := nodeImageFiles.length
          let scanned := scanWebdav isFullSync env cache
          match scanned.1 with
          | Except.error e =>
            ({ Result.zero with
                Success := false
                Message := "获取 WebDAV 文件列表失败: " ++ e
                ErrMsg := some e },
              scanned.2)
          | Except.ok webdavFileInfos =>
            analyzeAndExecute isFullSync env totalNodeImageFiles totalNodeImageSize
              nodeImageFiles webdavFileInfos scanned.2

/-- Outcome of one trigger of `runSync` in `main.go`: either the run was
skipped because the lock was held, or it ran and produced a `Result`. -/
inductive TriggerOutcome where
  | skipped
  | ran (r : Result)
  deriving DecidableEq, Repr

/-- `runSync` (main.go lines 138–171): `syncMutex.TryLock()` gate in front
of `sync_lib.RunSync`; a trigger while the lock is held logs a warning and
returns immediately — no run is started, nothing is queued, and no failure
`Result` is produced. -/
def runSyncMain (lockHeld : Bool) (config : Config) (isFullSync : Bool)
    (env : Env) (cache : Option (List FileInfo)) :
    TriggerOutcome × Option (List FileInfo) :=
  if lockHeld then (TriggerOutcome.skipped, cache)
  else
    let r := RunSync config isFullSync env cache
    (TriggerOutcome.ran r.1, r.2)

/-- Number of goroutines currently inside the `syncMutex`-guarded section;
a trigger performs `TryLock` atomically: it enters only from the idle
state, otherwise it is rejected with the state unchanged. -/
def triggerStep (running : Nat) : Nat × Bool :=
  if running = 0 then (1, true) else (running, false)

/-- A run leaving the guarded section releases the lock. -/
def finishStep (running : Nat) : Nat := running - 1

/-- States of the run-lock reachable from process start (no run active). -/
inductive LockReach : Nat → Prop where
  | init : LockReach 0
  | trigger {n : Nat} : LockReach n → LockReach (triggerStep n).1
  | finish {n : Nat} : LockReach n → LockReach (finishStep n)

/-- Environment where every call succeeds, the source listing is `S` and
the WebDAV listing is `W`; every transfer succeeds. -/
def envOk (S : List ImageInfo) (W : List FileInfo) : Env :=
  { connectErr := none
    testConnErr := none
    getImageListCookie := Except.ok S
    getImageListAPIKey := Except.ok S
    listWebdav := Except.ok W
    downloadOk := fun _ => true
    putOk := fun _ => true
    deleteOk := fun _ => true }

/-- Environment whose WebDAV listing call fails outright. -/
def envWdFail : Env :=
  { envOk [] [] with listWebdav := Except.error "host unreachable" }

/-- Environment where downloading `imgY` fails and everything else
succeeds. -/
def envYFail (S : List ImageInfo) (W : List FileInfo) : Env :=
  { envOk S W with downloadOk := fun f => if f = imgY then false else true }

/-- Environment where every delete fails and everything else succeeds. -/
def envDelFail (S : List ImageInfo) (W : List FileInfo) : Env :=
  { envOk S W with deleteOk := fun _ => false }

/-! ### Association-map lemmas -/

theorem mem_keysOf {m : StrMap} {a : String} :
    a ∈ keysOf m ↔ ∃ b, (a, b) ∈ m := by
  simp [keysOf, List.mem_map, Prod.ext_iff]

theorem keysOf_insertGo (m : StrMap) (k v : String) (a : String) :
    a ∈ keysOf (insertGo m k v) ↔ a ∈ keysOf m ∨ a = k := by
  induction m with
  | nil => simp [insertGo, keysOf]
  | cons p rest ih =>
    obtain ⟨k', v'⟩ := p
    by_cases h : k' = k
    · simp only [insertGo, if_pos h, keysOf, List.map_cons, List.mem_cons]
      subst h
      tauto
    · simp only [insertGo, if_neg h, keysOf, List.map_cons, List.mem_cons]
      simp only [keysOf] at ih
      rw [ih]
      tauto

theorem nodup_keysOf_insertGo {m : StrMap} (k v : String)
    (h : (keysOf m).Nodup) : (keysOf (insertGo m k v)).Nodup := by
  induction m with
  | nil => simp [insertGo, keysOf]
  | cons p rest ih =>
    obtain ⟨k', v'⟩ := p
    simp only [keysOf, List.map_cons, List.nodup_cons] at h
    by_cases hk : k' = k
    · subst hk
      simpa [insertGo, keysOf, List.nodup_cons] using h
    · simp only [insertGo, if_neg hk, keysOf, List.map_cons, List.nodup_cons]
      refine ⟨?_, ih h.2⟩
      intro hmem
      rcases (keysOf_insertGo rest k v k').mp hmem with h1 | h1
      · exact h.1 h1
      · exact hk h1

theorem mem_insertGo_self (m : StrMap) (k v : String) :
    (k, v) ∈ insertGo m k v := by
  induction m with
  | nil => simp [insertGo]
  | cons p rest ih =>
    obtain ⟨k', v'⟩ := p
    by_cases h : k' = k
    · simp [insertGo, h]
    · simp only [insertGo, if_neg h, List.mem_cons]
      exact Or.inr ih

theorem mem_insertGo_of_ne {m : StrMap} {a b : String} (k v : String)
    (hab : (a, b) ∈ m) (hne : a ≠ k) : (a, b) ∈ insertGo m k v := by
  induction m with
  | nil => simp at hab
  | cons p rest ih =>
    obtain ⟨k', v'⟩ := p
    by_cases hk : k' = k
    · simp only [insertGo, if_pos hk, List.mem_cons]
      rcases List.mem_cons.mp hab with h | h
      · injection h with h1 h2
        exact absurd (h1.trans hk) hne
      · exact Or.inr h
    · simp only [insertGo, if_neg hk, List.mem_cons]
      rcases List.mem_cons.mp hab with h | h
      · exact Or.inl h
      · exact Or.inr (ih h)

theorem fst_eq_base_insertGo {m : StrMap} {v : String}
    (hm : ∀ p ∈ m, p.1 = baseName p.2) :
    ∀ p ∈ insertGo m (baseName v) v, p.1 = baseName p.2 := by
  induction m with
  | nil => simp [insertGo]
  | cons q rest ih =>
    obtain ⟨k', v'⟩ := q
    intro p hp
    by_cases h : k' = baseName v
    · simp only [insertGo, if_pos h, List.mem_cons] at hp
      rcases hp with rfl | hp
      · rfl
      · exact hm _ (List.mem_cons_of_mem _ hp)
    · simp only [insertGo, if_neg h, List.mem_cons] at hp
      rcases hp with rfl | hp
      · exact hm _ (List.mem_cons_self _ _)
      · exact ih (fun q hq => hm q (List.mem_cons_of_mem _ hq)) p hp

theorem eraseGo_sublist (m : StrMap) (k : String) : (eraseGo m k).Sublist m := by
  induction m with
  | nil => simp [eraseGo]
  | cons p rest ih =>
    obtain ⟨k', v'⟩ := p
    by_cases h : k' = k
    · simp only [eraseGo, if_pos h]
      exact List.sublist_cons_self _ _
    · simp only [eraseGo, if_neg h]
      exact ih.cons₂ _

theorem mem_eraseGo_of_ne {m : StrMap} {a b : String} {k : String}
    (hab : (a, b) ∈ m) (hne : a ≠ k) : (a, b) ∈ eraseGo m k := by
  induction m with
  | nil => simp at hab
  | cons p rest ih =>
    obtain ⟨k', v'⟩ := p
    by_cases h : k' = k
    · simp only [eraseGo, if_pos h]
      rcases List.mem_cons.mp hab with h1 | h1
      · injection h1 with ha hb
        exact absurd (ha.trans h) hne
      · exact h1
    · simp only [eraseGo, if_neg h, List.mem_cons]
      rcases List.mem_cons.mp hab with h1 | h1
      · exact Or.inl h1
      · exact Or.inr (ih h1)

theorem key_ne_of_mem_eraseGo {m : StrMap} {a b : String} {k : String}
    (hnd : (keysOf m).Nodup) (hab : (a, b) ∈ eraseGo m k) : a ≠ k := by
  induction m with
  | nil => simp [eraseGo] at hab
  | cons p rest ih =>
    obtain ⟨k', v'⟩ := p
    simp only [keysOf, List.map_cons, List.nodup_cons] at hnd
    by_cases h : k' = k
    · simp only [eraseGo, if_pos h] at hab
      intro hak
      apply hnd.1
      have : a ∈ keysOf rest := mem_keysOf.mpr ⟨b, hab⟩
      rw [h, ← hak]
      exact this
    · simp only [eraseGo, if_neg h, List.mem_cons] at hab
      rcases hab with h1 | h1
      · injection h1 with ha hb
        exact fun hc => h (ha.symm.trans hc)
      · exact ih hnd.2 h1

theorem findGo_eq_none {m : StrMap} {k : String} :
    findGo m k = none ↔ k ∉ keysOf m := by
  induction m with
  | nil => simp [findGo, keysOf]
  | cons p rest ih =>
    obtain ⟨k', v'⟩ := p
    by_cases h : k' = k
    · simp [findGo, if_pos h, keysOf, h]
    · simp only [findGo, if_neg h, keysOf, List.map_cons, List.mem_cons]
      simp only [keysOf] at ih
      rw [ih]
      constructor
      · intro h1 h2
        rcases h2 with h2 | h2
        · exact h h2.symm
        · exact h1 h2
      · intro h1 h2
        exact h1 (Or.inr h2)

theorem keysOf_eraseGo_subset {m : StrMap} {k : String} :
    keysOf (eraseGo m k) ⊆ keysOf m :=
  List.Sublist.subset ((eraseGo_sublist m k).map Prod.fst)

theorem mem_keysOf_eraseGo {m : StrMap} {a k : String}
    (ha : a ∈ keysOf m) (hne : a ≠ k) : a ∈ keysOf (eraseGo m k) := by
  obtain ⟨b, hb⟩ := mem_keysOf.mp ha
  exact mem_keysOf.mpr ⟨b, mem_eraseGo_of_ne hb hne⟩

/-! ### `buildMap` lemmas -/

theorem nodup_keysOf_buildMap_aux (D : List String) (m : StrMap)
    (hm : (keysOf m).Nodup) :
    (keysOf (D.foldl (fun m f => insertGo m (baseName f) f) m)).Nodup := by
  induction D generalizing m with
  | nil => simpa using hm
  | cons d D ih =>
    simp only [List.foldl_cons]
    exact ih _ (nodup_keysOf_insertGo _ _ hm)

theorem nodup_keysOf_buildMap (D : List String) : (keysOf (buildMap D)).Nodup :=
  nodup_keysOf_buildMap_aux D [] (by simp [keysOf])

theorem fst_eq_base_buildMap_aux (D : List String) (m : StrMap)
    (hm : ∀ p ∈ m, p.1 = baseName p.2) :
    ∀ p ∈ D.foldl (fun m f => insertGo m (baseName f) f) m, p.1 = baseName p.2 := by
  induction D generalizing m with
  | nil => simpa using hm
  | cons d D ih =>
    simp only [List.foldl_cons]
    exact ih _ (fst_eq_base_insertGo hm)

theorem fst_eq_base_buildMap (D : List String) :
    ∀ p ∈ buildMap D, p.1 = baseName p.2 :=
  fst_eq_base_buildMap_aux D [] (by simp)

theorem mem_keysOf_buildMap_aux (D : List String) (m : StrMap) (a : String) :
    a ∈ keysOf (D.foldl (fun m f => insertGo m (baseName f) f) m) ↔
      a ∈ keysOf m ∨ a ∈ D.map baseName := by
  induction D generalizing m with
  | nil => simp
  | cons d D ih =>
    simp only [List.foldl_cons, List.map_cons, List.mem_cons]
    rw [ih]
    rw [keysOf_insertGo]
    tauto

theorem mem_keysOf_buildMap (D : List String) (a : String) :
    a ∈ keysOf (buildMap D) ↔ a ∈ D.map baseName := by
  rw [buildMap, mem_keysOf_buildMap_aux]
  simp [keysOf]

theorem mem_buildMap_preserved (D : List String) (m : StrMap) {a b : String}
    (hab : (a, b) ∈ m) (ha : a ∉ D.map baseName) :
    (a, b) ∈ D.foldl (fun m f => insertGo m (baseName f) f) m := by
  induction D generalizing m with
  | nil => simpa using hab
  | cons d D ih =>
    simp only [List.map_cons, List.mem_cons] at ha
    push_neg at ha
    simp only [List.foldl_cons]
    exact ih _ (mem_insertGo_of_ne _ _ hab ha.1) (fun h => ha.2 h)

theorem mem_buildMap_of_mem_aux (D : List String) (m : StrMap) {d : String}
    (hD : (D.map baseName).Nodup) (hd : d ∈ D) :
    (baseName d, d) ∈ D.foldl (fun m f => insertGo m (baseName f) f) m := by
  induction D generalizing m with
  | nil => simp at hd
  | cons e D ih =>
    simp only [List.map_cons, List.nodup_cons] at hD
    simp only [List.foldl_cons]
    rcases List.mem_cons.mp hd with rfl | hd
    · exact mem_buildMap_preserved D _ (mem_insertGo_self _ _ _) hD.1
    · exact ih _ hD.2 hd

theorem mem_buildMap_of_mem {D : List String} {d : String}
    (hD : (D.map baseName).Nodup) (hd : d ∈ D) :
    (baseName d, d) ∈ buildMap D :=
  mem_buildMap_of_mem_aux D [] hD hd

/-! ### Bridging the `diffFiles` fold to the direct recursions -/

theorem diffFold_eq (S : List ImageInfo) (ups : List ImageInfo) (m : StrMap) :
    S.foldl (fun acc niFile =>
        (if (findGo acc.2 niFile.Filename).isNone then acc.1 ++ [niFile] else acc.1,
          eraseGo acc.2 niFile.Filename)) (ups, m)
      = (ups ++ uploadsRec S m, mapRec S m) := by
  induction S generalizing ups m with
  | nil => simp [uploadsRec, mapRec]
  | cons ni rest ih =>
    simp only [List.foldl_cons, uploadsRec, mapRec]
    rw [ih]
    by_cases h : (findGo m ni.Filename).isNone
    · simp [h]
    · simp [h]

theorem diffFiles_eq (S : List ImageInfo) (D : List String) :
    diffFiles S D = (uploadsRec S (buildMap D), (mapRec S (buildMap D)).map Prod.snd) := by
  show ((S.foldl _ ([], buildMap D)).1, (S.foldl _ ([], buildMap D)).2.map Prod.snd) = _
  rw [diffFold_eq]
  simp

/-! ### Plan lemmas -/

theorem mem_uploadsRec_of_not_key {S : List ImageInfo} {m : StrMap} {s : ImageInfo}
    (hs : s ∈ S) (hkey : s.Filename ∉ keysOf m) : s ∈ uploadsRec S m := by
  induction S generalizing m with
  | nil => simp at hs
  | cons ni rest ih =>
    simp only [uploadsRec, List.mem_append]
    rcases List.mem_cons.mp hs with rfl | hs
    · left
      rw [if_pos (Option.isNone_iff_eq_none.mpr (findGo_eq_none.mpr hkey))]
      simp
    · right
      exact ih hs (fun h => hkey (keysOf_eraseGo_subset h))

theorem uploadsRec_subset {S : List ImageInfo} {m : StrMap} {s : ImageInfo}
    (hs : s ∈ uploadsRec S m) : s ∈ S := by
  induction S generalizing m with
  | nil => simp [uploadsRec] at hs
  | cons ni rest ih =>
    simp only [uploadsRec, List.mem_append] at hs
    rcases hs with h | h
    · rcases List.mem_ite_nil_right.mp h with ⟨_, h⟩
      exact List.mem_cons.mpr (Or.inl (List.mem_singleton.mp h))
    · exact List.mem_cons.mpr (Or.inr (ih h))

theorem not_mem_uploadsRec_of_key {S : List ImageInfo} {m : StrMap} {n : String}
    (hS : (S.map ImageInfo.Filename).Nodup) (hn : n ∈ keysOf m) :
    n ∉ (uploadsRec S m).map ImageInfo.Filename := by
  induction S generalizing m with
  | nil => simp [uploadsRec]
  | cons ni rest ih =>
    simp only [List.map_cons, List.nodup_cons] at hS
    simp only [uploadsRec, List.map_append, List.mem_append]
    rintro (h | h)
    · -- the head contributed: its filename is in the keys, so the guard is
      -- false and the head contribution is empty
      by_cases hni : ni.Filename = n
      · rw [if_neg (fun hcon =>
            (findGo_eq_none.mp (Option.isNone_iff_eq_none.mp hcon)) (hni ▸ hn))] at h
        simp at h
      · obtain ⟨s, hsmem, hs⟩ := List.mem_map.mp h
        rcases List.mem_ite_nil_right.mp hsmem with ⟨_, hs1⟩
        rw [List.mem_singleton.mp hs1] at hs
        exact hni hs
    · by_cases hni : ni.Filename = n
      · obtain ⟨s, hsmem, hs⟩ := List.mem_map.mp h
        have := uploadsRec_subset hsmem
        exact hS.1 (hni ▸ hs ▸ List.mem_map_of_mem ImageInfo.Filename this)
      · exact ih hS.2 (mem_keysOf_eraseGo hn (fun hc => hni hc.symm)) h

theorem mem_mapRec_of_not_name {S : List ImageInfo} {m : StrMap} {a b : String}
    (hab : (a, b) ∈ m) (ha : a ∉ S.map ImageInfo.Filename) :
    (a, b) ∈ mapRec S m := by
  induction S generalizing m with
  | nil => simpa [mapRec] using hab
  | cons ni rest ih =>
    simp only [List.map_cons, List.mem_cons] at ha
    push_neg at ha
    exact ih (mem_eraseGo_of_ne hab ha.1) ha.2

theorem mapRec_sublist (S : List ImageInfo) (m : StrMap) : (mapRec S m).Sublist m := by
  induction S generalizing m with
  | nil => simp [mapRec]
  | cons ni rest ih =>
    exact (ih _).trans (eraseGo_sublist m ni.Filename)

theorem name_not_in_source_of_mem_mapRec {S : List ImageInfo} {m : StrMap}
    {a b : String} (hnd : (keysOf m).Nodup) (hab : (a, b) ∈ mapRec S m) :
    a ∉ S.map ImageInfo.Filename := by
  induction S generalizing m with
  | nil => simp
  | cons ni rest ih =>
    simp only [List.map_cons, List.mem_cons]
    have hsub : (keysOf (eraseGo m ni.Filename)).Nodup :=
      ((eraseGo_sublist m ni.Filename).map Prod.fst).nodup hnd
    rintro (rfl | h)
    · exact key_ne_of_mem_eraseGo hnd
        (List.Sublist.mem hab (mapRec_sublist rest _)) rfl
    · exact ih hsub hab h

/-! ### Claim C1: diff completeness -/

/-- C1, counterexample: the claim fails as stated when a filename occurs
twice in the source list.  With `S = [imgX, imgX]` and `D = ["a/x.jpg"]`
the name `"x.jpg"` is present on both sides yet the second copy of `imgX`
lands in `to_upload` (its map entry was consumed by the first copy). -/
theorem diffFiles_claim_counterexample :
    ¬ (∀ (S : List ImageInfo) (D : List String),
        (∀ s ∈ S, s.Filename ∉ D.map baseName → s ∈ (diffFiles S D).1) ∧
        (∀ d ∈ D, baseName d ∉ S.map ImageInfo.Filename → d ∈ (diffFiles S D).2) ∧
        (∀ n, n ∈ S.map ImageInfo.Filename → n ∈ D.map baseName →
          n ∉ (diffFiles S D).1.map ImageInfo.Filename ∧
          n ∉ (diffFiles S D).2.map baseName)) := by
  intro h
  have h3 := (h [imgX, imgX] ["a/x.jpg"]).2.2 "x.jpg"
    (by decide) (by decide)
  exact h3.1 (by decide)

/-- C1 (amended: both listings carry pairwise-distinct names — no duplicate
source filenames, no duplicate destination basenames): every source entry
whose name is absent from the destination basenames is in `to_upload`,
every destination entry whose basename is absent from the source filenames
is in `to_delete`, and a name present on both sides appears in neither
output list. -/
theorem diffFiles_completeness (S : List ImageInfo) (D : List String)
    (hS : (S.map ImageInfo.Filename).Nodup)
    (hD : (D.map baseName).Nodup) :
    (∀ s ∈ S, s.Filename ∉ D.map baseName → s ∈ (diffFiles S D).1) ∧
    (∀ d ∈ D, baseName d ∉ S.map ImageInfo.Filename → d ∈ (diffFiles S D).2) ∧
    (∀ n, n ∈ S.map ImageInfo.Filename → n ∈ D.map baseName →
      n ∉ (diffFiles S D).1.map ImageInfo.Filename ∧
      n ∉ (diffFiles S D).2.map baseName) := by
  rw [diffFiles_eq]
  refine ⟨?_, ?_, ?_⟩
  · intro s hs hname
    exact mem_uploadsRec_of_not_key hs
      (fun hk => hname ((mem_keysOf_buildMap D s.Filename).mp hk))
  · intro d hd hbase
    exact List.mem_map_of_mem Prod.snd
      (mem_mapRec_of_not_name (mem_buildMap_of_mem hD hd) hbase)
  · intro n hnS hnD
    constructor
    · exact not_mem_uploadsRec_of_key hS ((mem_keysOf_buildMap D n).mpr hnD)
    · intro hmem
      obtain ⟨d, hdmem, hdb⟩ := List.mem_map.mp hmem
      obtain ⟨p, hpmem, hps⟩ := List.mem_map.mp hdmem
      have hfst : p.1 = baseName p.2 :=
        fst_eq_base_buildMap D p (List.Sublist.mem hpmem (mapRec_sublist S _))
      have hnot : p.1 ∉ S.map ImageInfo.Filename := by
        obtain ⟨a, b⟩ := p
        exact name_not_in_source_of_mem_mapRec (nodup_keysOf_buildMap D) hpmem
      rw [hfst, hps, hdb] at hnot
      exact hnot hnS

/-- C1 witness: the amended completeness theorem evaluated on the concrete
listings `S = [imgY]`, `D = ["/images/x.jpg"]`. -/
theorem diffFiles_completeness_witness :
    (([imgY].map ImageInfo.Filename).Nodup ∧
      (["/images/x.jpg"].map baseName).Nodup) ∧
    ((∀ s ∈ [imgY], s.Filename ∉ ["/images/x.jpg"].map baseName →
        s ∈ (diffFiles [imgY] ["/images/x.jpg"]).1) ∧
      (∀ d ∈ ["/images/x.jpg"],
        baseName d ∉ [imgY].map ImageInfo.Filename →
        d ∈ (diffFiles [imgY] ["/images/x.jpg"]).2) ∧
      (∀ n, n ∈ [imgY].map ImageInfo.Filename →
        n ∈ ["/images/x.jpg"].map baseName →
        n ∉ (diffFiles [imgY] ["/images/x.jpg"]).1.map ImageInfo.Filename ∧
        n ∉ (diffFiles [imgY] ["/images/x.jpg"]).2.map baseName)) :=
  ⟨⟨by decide, by decide⟩,
    diffFiles_completeness [imgY] ["/images/x.jpg"] (by decide) (by decide)⟩

/-! ### `RunSync` unfolding lemmas -/

theorem scanWebdav_ok {full : Bool} {env : Env} {cache : Option (List FileInfo)}
    {W : List FileInfo} (h : (scanWebdav full env cache).1 = Except.ok W) :
    scanWebdav full env cache = (Except.ok W, some W) := by
  unfold scanWebdav at h ⊢
  cases full with
  | true =>
    cases hw : env.listWebdav with
    | error e => simp [hw] at h
    | ok infos =>
      simp only [if_pos rfl, hw] at h ⊢
      simp at h
      subst h
      rfl
  | false =>
    cases cache with
    | some c =>
      simp at h
      subst h
      rfl
    | none =>
      cases hw : env.listWebdav with
      | error e => simp [hw] at h
      | ok infos =>
        simp only [hw] at h ⊢
        simp at h
        subst h
        rfl

theorem runSync_phase3 {config : Config} {full : Bool} {env : Env}
    {cache : Option (List FileInfo)} {S : List ImageInfo} {W : List FileInfo}
    (hcfg : configMissing config full = false)
    (hconn : env.connectErr = none)
    (htest : full = true → env.testConnErr = none)
    (hni : (if full then env.getImageListCookie else env.getImageListAPIKey)
      = Except.ok S)
    (hwd : (scanWebdav full env cache).1 = Except.ok W) :
    RunSync config full env cache =
      analyzeAndExecute full env S.length ((S.map ImageInfo.Size).sum) S W (some W) := by
  have hscan := scanWebdav_ok hwd
  unfold RunSync
  cases full with
  | true =>
    rw [htest rfl] at *
    simp only [if_pos rfl] at hni
    simp [hcfg, hconn, hni, hscan, htest rfl]
    simp only [if_true] at hni
    rw [hni]
  | false =>
    simp only [Bool.false_eq_true, if_neg] at hni
    simp [hcfg, hconn, hni, hscan]
    simp only [if_false] at hni
    rw [hni]

theorem analyzeAndExecute_empty (full : Bool) (env : Env) (tf : Nat) (ts : Int)
    (S : List ImageInfo) (W : List FileInfo) (c1 : Option (List FileInfo))
    (hup : (diffFiles S (W.map FileInfo.Path)).1 = [])
    (hdel : (if full then (diffFiles S (W.map FileInfo.Path)).2 else []) = []) :
    analyzeAndExecute full env tf ts S W c1 =
      ({ Result.zero with
          Success := true
          Message := "文件已是最新状态，无需同步。"
          TotalNodeImageFiles := tf
          TotalNodeImageSize := ts
          TotalWebDAVFiles := W.length
          TotalWebDAVSize := (W.map FileInfo.Size).sum }, c1) := by
  simp only [analyzeAndExecute, hup, hdel]
  simp

theorem filter_length_pos_iff {p : ImageInfo → Bool} {l : List ImageInfo} :
    0 < (l.filter p).length ↔ ∃ x ∈ l, p x = true := by
  induction l with
  | nil => simp
  | cons a l ih =>
    by_cases h : p a = true
    · simp [List.filter_cons, h]
    · simp only [List.filter_cons, if_neg h, List.mem_cons]
      rw [ih]
      constructor
      · rintro ⟨x, hx, hpx⟩
        exact ⟨x, Or.inr hx, hpx⟩
      · rintro ⟨x, rfl | hx, hpx⟩
        · exact absurd hpx h
        · exact ⟨x, hx, hpx⟩

theorem filterS_length_pos_iff {p : String → Bool} {l : List String} :
    0 < (l.filter p).length ↔ ∃ x ∈ l, p x = true := by
  induction l with
  | nil => simp
  | cons a l ih =>
    by_cases h : p a = true
    · simp [List.filter_cons, h]
    · simp only [List.filter_cons, if_neg h, List.mem_cons]
      rw [ih]
      constructor
      · rintro ⟨x, hx, hpx⟩
        exact ⟨x, Or.inr hx, hpx⟩
      · rintro ⟨x, rfl | hx, hpx⟩
        · exact absurd hpx h
        · exact ⟨x, hx, hpx⟩

theorem analyzeAndExecute_uploaded (full : Bool) (env : Env) (tf : Nat) (ts : Int)
    (S : List ImageInfo) (W : List FileInfo) (c1 : Option (List FileInfo))
    (hne : ((diffFiles S (W.map FileInfo.Path)).1.isEmpty &&
        (if full then (diffFiles S (W.map FileInfo.Path)).2 else []).isEmpty) = false) :
    (analyzeAndExecute full env tf ts S W c1).1.Uploaded =
      ((diffFiles S (W.map FileInfo.Path)).1.filter (fun f => uploadFileOk env f)).length := by
  simp only [analyzeAndExecute]
  rw [if_neg (by simp [hne])]
  split <;> split <;> rfl

theorem analyzeAndExecute_deleted (full : Bool) (env : Env) (tf : Nat) (ts : Int)
    (S : List ImageInfo) (W : List FileInfo) (c1 : Option (List FileInfo))
    (hne : ((diffFiles S (W.map FileInfo.Path)).1.isEmpty &&
        (if full then (diffFiles S (W.map FileInfo.Path)).2 else []).isEmpty) = false) :
    (analyzeAndExecute full env tf ts S W c1).1.Deleted =
      ((if full then (diffFiles S (W.map FileInfo.Path)).2 else []).filter
        (fun p => env.deleteOk p)).length := by
  simp only [analyzeAndExecute]
  rw [if_neg (by simp [hne])]
  split <;> split <;> simp

theorem analyzeAndExecute_uploadSize (full : Bool) (env : Env) (tf : Nat) (ts : Int)
    (S : List ImageInfo) (W : List FileInfo) (c1 : Option (List FileInfo))
    (hne : ((diffFiles S (W.map FileInfo.Path)).1.isEmpty &&
        (if full then (diffFiles S (W.map FileInfo.Path)).2 else []).isEmpty) = false) :
    (analyzeAndExecute full env tf ts S W c1).1.UploadSize =
      ((diffFiles S (W.map FileInfo.Path)).1.map ImageInfo.Size).sum := by
  simp only [analyzeAndExecute]
  rw [if_neg (by simp [hne])]
  split <;> split <;> rfl

theorem analyzeAndExecute_success_iff (full : Bool) (env : Env) (tf : Nat) (ts : Int)
    (S : List ImageInfo) (W : List FileInfo) (c1 : Option (List FileInfo))
    (hne : ((diffFiles S (W.map FileInfo.Path)).1.isEmpty &&
        (if full then (diffFiles S (W.map FileInfo.Path)).2 else []).isEmpty) = false) :
    (analyzeAndExecute full env tf ts S W c1).1.Success = true ↔
      ((diffFiles S (W.map FileInfo.Path)).1.filter
        (fun f => !uploadFileOk env f)).length = 0 ∧
      ((if full then (diffFiles S (W.map FileInfo.Path)).2 else []).filter
        (fun p => !env.deleteOk p)).length = 0 := by
  simp only [analyzeAndExecute]
  rw [if_neg (by simp [hne])]
  cases full <;> split_ifs <;>
    simp_all [filter_length_pos_iff, filterS_length_pos_iff]
  intro hall
  rename_i hcond
  rcases hcond with ⟨y, hy, hpy⟩ | hdel
  · exact absurd (hall y hy) (by simp [hpy])
  · exact hdel

theorem analyzeAndExecute_errMsg (full : Bool) (env : Env) (tf : Nat) (ts : Int)
    (S : List ImageInfo) (W : List FileInfo) (c1 : Option (List FileInfo))
    (hne : ((diffFiles S (W.map FileInfo.Path)).1.isEmpty &&
        (if full then (diffFiles S (W.map FileInfo.Path)).2 else []).isEmpty) = false)
    (hfail : (analyzeAndExecute full env tf ts S W c1).1.Success = false) :
    (analyzeAndExecute full env tf ts S W c1).1.ErrMsg.isSome = true := by
  simp only [analyzeAndExecute] at hfail ⊢
  rw [if_neg (by simp [hne])] at hfail ⊢
  revert hfail
  split <;> split <;> simp

theorem analyzeAndExecute_cache (full : Bool) (env : Env) (tf : Nat) (ts : Int)
    (S : List ImageInfo) (W : List FileInfo) (c1 : Option (List FileInfo))
    (hne : ((diffFiles S (W.map FileInfo.Path)).1.isEmpty &&
        (if full then (diffFiles S (W.map FileInfo.Path)).2 else []).isEmpty) = false) :
    (analyzeAndExecute full env tf ts S W c1).2 =
      (if 0 < ((diffFiles S (W.map FileInfo.Path)).1.filter
            (fun f => uploadFileOk env f)).length ∨
          0 < ((if full then (diffFiles S (W.map FileInfo.Path)).2 else []).filter
            (fun p => env.deleteOk p)).length
        then none else c1) := by
  simp only [analyzeAndExecute]
  rw [if_neg (by simp [hne])]
  cases full <;> split_ifs <;>
    simp_all [filter_length_pos_iff, filterS_length_pos_iff]
  · rename_i hfl hex
    obtain ⟨y, hy, hpy⟩ := hex
    exact absurd (hfl y hy) (by simp [hpy])
  · rename_i hfl hex
    rcases hex with ⟨y, hy, hpy⟩ | ⟨y, hy, hpy⟩
    · exact absurd (hfl.1 y hy) (by simp [hpy])
    · exact absurd (hfl.2 y hy) (by simp [hpy])

/-! ### Run-level helper lemmas -/

theorem append_ne_empty_of_left {a : String} (b : String) (h : a ≠ "") :
    a ++ b ≠ "" := by
  intro hc
  apply h
  cases a with
  | mk da =>
    cases b with
    | mk db =>
      have hdata : da ++ db = ([] : List Char) := congrArg String.data hc
      rcases List.append_eq_nil.mp hdata with ⟨rfl, -⟩
      rfl

theorem length_filter_add_not (p : ImageInfo → Bool) (l : List ImageInfo) :
    (l.filter p).length + (l.filter (fun a => !p a)).length = l.length := by
  induction l with
  | nil => rfl
  | cons a l ih =>
    by_cases h : p a = true <;>
      simp only [List.filter_cons, h, Bool.not_true, Bool.not_false,
        if_pos, if_neg, Bool.false_eq_true, Bool.true_eq_false,
        List.length_cons, ite_true, ite_false] <;> omega

theorem analyzeAndExecute_deleted_incremental (env : Env) (tf : Nat) (ts : Int)
    (S : List ImageInfo) (W : List FileInfo) (c1 : Option (List FileInfo)) :
    (analyzeAndExecute false env tf ts S W c1).1.Deleted = 0 := by
  simp only [analyzeAndExecute, Bool.false_eq_true, if_false]
  split_ifs <;> rfl

theorem runSync_total (config : Config) (full : Bool) (env : Env)
    (cache : Option (List FileInfo)) :
    (configMissing config full = false ∧ env.connectErr = none ∧
      (full = true → env.testConnErr = none) ∧
      (∃ S, (if full then env.getImageListCookie else env.getImageListAPIKey)
        = Except.ok S) ∧
      (∃ W, (scanWebdav full env cache).1 = Except.ok W)) ∨
    ((RunSync config full env cache).1.Success = false ∧
      (RunSync config full env cache).1.Uploaded = 0 ∧
      (RunSync config full env cache).1.Deleted = 0 ∧
      (RunSync config full env cache).1.ErrMsg.isSome = true ∧
      (RunSync config full env cache).1.Message ≠ "") := by
  by_cases h1 : configMissing config full = true
  · right
    have hrun : (RunSync config full env cache).1 =
        { Result.zero with
            Success := false
            Message := "模式 " ++ (if full then "全量同步" else "增量同步") ++
              " 所需的配置未完全设置"
            ErrMsg := some ("模式 " ++ (if full then "全量同步" else "增量同步") ++
              " 所需的配置未完全设置") } := by
      simp [RunSync, h1]
    rw [hrun]
    refine ⟨rfl, rfl, rfl, rfl, ?_⟩
    exact append_ne_empty_of_left _
      (append_ne_empty_of_left _ (by decide))
  · rw [Bool.not_eq_true] at h1
    cases h2 : env.connectErr with
    | some e =>
      right
      have hrun : (RunSync config full env cache).1 =
          { Result.zero with
              Success := false
              Message := "连接 WebDAV 失败: " ++ e
              ErrMsg := some e } := by
        simp [RunSync, h1, h2]
      rw [hrun]
      exact ⟨rfl, rfl, rfl, rfl, append_ne_empty_of_left _ (by decide)⟩
    | none =>
      by_cases h3 : (full && env.testConnErr.isSome) = true
      · right
        have hrun : (RunSync config full env cache).1 =
            { Result.zero with
                Success := false
                Message := "连接 NodeImage 失败: " ++ env.testConnErr.getD ""
                ErrMsg := some (env.testConnErr.getD "") } := by
          simp [RunSync, h1, h2, h3]
        rw [hrun]
        exact ⟨rfl, rfl, rfl, rfl, append_ne_empty_of_left _ (by decide)⟩
      · rw [Bool.not_eq_true] at h3
        cases h4 : (if full then env.getImageListCookie else env.getImageListAPIKey) with
        | error e =>
          right
          have hrun : (RunSync config full env cache).1 =
              { Result.zero with
                  Success := false
                  Message := "获取 NodeImage 文件列表失败: " ++ e
                  ErrMsg := some e } := by
            simp [RunSync, h1, h2, h3, h4]
          rw [hrun]
          exact ⟨rfl, rfl, rfl, rfl, append_ne_empty_of_left _ (by decide)⟩
        | ok S =>
          cases h5 : (scanWebdav full env cache).1 with
          | error e =>
            right
            have hrun : (RunSync config full env cache).1 =
                { Result.zero with
                    Success := false
                    Message := "获取 WebDAV 文件列表失败: " ++ e
                    ErrMsg := some e } := by
              simp [RunSync, h1, h2, h3, h4, h5]
            rw [hrun]
            exact ⟨rfl, rfl, rfl, rfl, append_ne_empty_of_left _ (by decide)⟩
          | ok W =>
            left
            refine ⟨h1, rfl, ?_, ⟨S, rfl⟩, ⟨W, rfl⟩⟩
            intro hf
            subst hf
            simp only [Bool.true_and] at h3
            cases ht : env.testConnErr with
            | none => rfl
            | some e => rw [ht] at h3; simp at h3

/-! ### Claim C2: partial-failure isolation -/

/-- C2: for a run that reaches the executor with an upload plan of N
entries of which exactly one fails (fetch or put), the result reports
`Uploaded = N - 1`, `Success = false`, and carries the failure in its
error field; no failure cancels the other items. -/
theorem runSync_partial_failure {config : Config} {full : Bool} {env : Env}
    {cache : Option (List FileInfo)} {S : List ImageInfo} {W : List FileInfo}
    (hcfg : configMissing config full = false)
    (hconn : env.connectErr = none)
    (htest : full = true → env.testConnErr = none)
    (hni : (if full then env.getImageListCookie else env.getImageListAPIKey)
      = Except.ok S)
    (hwd : (scanWebdav full env cache).1 = Except.ok W)
    (hone : ((diffFiles S (W.map FileInfo.Path)).1.filter
        (fun f => !uploadFileOk env f)).length = 1) :
    (RunSync config full env cache).1.Uploaded =
      (diffFiles S (W.map FileInfo.Path)).1.length - 1 ∧
    (RunSync config full env cache).1.Success = false ∧
    (RunSync config full env cache).1.ErrMsg.isSome = true := by
  have hne : ((diffFiles S (W.map FileInfo.Path)).1.isEmpty &&
      (if full then (diffFiles S (W.map FileInfo.Path)).2 else []).isEmpty) = false := by
    rcases hpl : (diffFiles S (W.map FileInfo.Path)).1 with _ | ⟨a, l⟩
    · rw [hpl] at hone
      simp at hone
    · simp
  rw [runSync_phase3 hcfg hconn htest hni hwd]
  have hupl := analyzeAndExecute_uploaded full env S.length
    ((S.map ImageInfo.Size).sum) S W (some W) hne
  have hsucc := analyzeAndExecute_success_iff full env S.length
    ((S.map ImageInfo.Size).sum) S W (some W) hne
  have hsf : (analyzeAndExecute full env S.length
      ((S.map ImageInfo.Size).sum) S W (some W)).1.Success = false := by
    cases hb : (analyzeAndExecute full env S.length
        ((S.map ImageInfo.Size).sum) S W (some W)).1.Success with
    | false => rfl
    | true =>
      have h0 := (hsucc.mp hb).1
      omega
  refine ⟨?_, hsf, analyzeAndExecute_errMsg full env S.length
    ((S.map ImageInfo.Size).sum) S W (some W) hne hsf⟩
  rw [hupl]
  have htot := length_filter_add_not (fun f => uploadFileOk env f)
    (diffFiles S (W.map FileInfo.Path)).1
  omega

/-- C2 witness: two planned uploads, the download of `imgY` fails, the
other entry is still uploaded. -/
theorem runSync_partial_failure_witness :
    (configMissing cfgAll false = false ∧
      (envYFail [imgX, imgY] []).connectErr = none ∧
      ((if false then (envYFail [imgX, imgY] []).getImageListCookie
        else (envYFail [imgX, imgY] []).getImageListAPIKey)
        = Except.ok [imgX, imgY]) ∧
      (scanWebdav false (envYFail [imgX, imgY] []) none).1 = Except.ok [] ∧
      ((diffFiles [imgX, imgY] (([] : List FileInfo).map FileInfo.Path)).1.filter
        (fun f => !uploadFileOk (envYFail [imgX, imgY] []) f)).length = 1) ∧
    ((RunSync cfgAll false (envYFail [imgX, imgY] []) none).1.Uploaded =
      (diffFiles [imgX, imgY] (([] : List FileInfo).map FileInfo.Path)).1.length - 1 ∧
    (RunSync cfgAll false (envYFail [imgX, imgY] []) none).1.Success = false ∧
    (RunSync cfgAll false (envYFail [imgX, imgY] []) none).1.ErrMsg.isSome = true) :=
  ⟨⟨by decide, rfl, rfl, rfl, by decide⟩,
    runSync_partial_failure (by decide) rfl (fun h => by simp at h) rfl rfl (by decide)⟩

/-! ### Claim C3: success verdict rule -/

/-- C3: for a run that reaches the executor, `Success = true` exactly when
no upload and no delete failed, and the counts of completed operations are
retained in `Uploaded`/`Deleted` unchanged. -/
theorem runSync_success_verdict {config : Config} {full : Bool} {env : Env}
    {cache : Option (List FileInfo)} {S : List ImageInfo} {W : List FileInfo}
    (hcfg : configMissing config full = false)
    (hconn : env.connectErr = none)
    (htest : full = true → env.testConnErr = none)
    (hni : (if full then env.getImageListCookie else env.getImageListAPIKey)
      = Except.ok S)
    (hwd : (scanWebdav full env cache).1 = Except.ok W)
    (hne : ((diffFiles S (W.map FileInfo.Path)).1.isEmpty &&
        (if full then (diffFiles S (W.map FileInfo.Path)).2 else []).isEmpty) = false) :
    ((RunSync config full env cache).1.Success = true ↔
      ((diffFiles S (W.map FileInfo.Path)).1.filter
        (fun f => !uploadFileOk env f)).length = 0 ∧
      ((if full then (diffFiles S (W.map FileInfo.Path)).2 else []).filter
        (fun p => !env.deleteOk p)).length = 0) ∧
    (RunSync config full env cache).1.Uploaded =
      ((diffFiles S (W.map FileInfo.Path)).1.filter
        (fun f => uploadFileOk env f)).length ∧
    (RunSync config full env cache).1.Deleted =
      ((if full then (diffFiles S (W.map FileInfo.Path)).2 else []).filter
        (fun p => env.deleteOk p)).length := by
  rw [runSync_phase3 hcfg hconn htest hni hwd]
  exact ⟨analyzeAndExecute_success_iff full env S.length
      ((S.map ImageInfo.Size).sum) S W (some W) hne,
    analyzeAndExecute_uploaded full env S.length
      ((S.map ImageInfo.Size).sum) S W (some W) hne,
    analyzeAndExecute_deleted full env S.length
      ((S.map ImageInfo.Size).sum) S W (some W) hne⟩

/-- C3 witness: a full run whose only planned operation is a delete that
fails: verdict flips to failure, counts retained. -/
theorem runSync_success_verdict_witness :
    (configMissing cfgAll true = false ∧
      (envDelFail [imgX] [fileX, fileStale]).connectErr = none ∧
      ((if true then (envDelFail [imgX] [fileX, fileStale]).getImageListCookie
        else (envDelFail [imgX] [fileX, fileStale]).getImageListAPIKey)
        = Except.ok [imgX]) ∧
      (scanWebdav true (envDelFail [imgX] [fileX, fileStale]) none).1
        = Except.ok [fileX, fileStale] ∧
      ((diffFiles [imgX] ([fileX, fileStale].map FileInfo.Path)).1.isEmpty &&
        (if true then (diffFiles [imgX] ([fileX, fileStale].map FileInfo.Path)).2
          else []).isEmpty) = false) ∧
    (((RunSync cfgAll true (envDelFail [imgX] [fileX, fileStale]) none).1.Success = true ↔
      ((diffFiles [imgX] ([fileX, fileStale].map FileInfo.Path)).1.filter
        (fun f => !uploadFileOk (envDelFail [imgX] [fileX, fileStale]) f)).length = 0 ∧
      ((if true then (diffFiles [imgX] ([fileX, fileStale].map FileInfo.Path)).2
          else []).filter
        (fun p => !(envDelFail [imgX] [fileX, fileStale]).deleteOk p)).length = 0) ∧
    (RunSync cfgAll true (envDelFail [imgX] [fileX, fileStale]) none).1.Uploaded =
      ((diffFiles [imgX] ([fileX, fileStale].map FileInfo.Path)).1.filter
        (fun f => uploadFileOk (envDelFail [imgX] [fileX, fileStale]) f)).length ∧
    (RunSync cfgAll true (envDelFail [imgX] [fileX, fileStale]) none).1.Deleted =
      ((if true then (diffFiles [imgX] ([fileX, fileStale].map FileInfo.Path)).2
          else []).filter
        (fun p => (envDelFail [imgX] [fileX, fileStale]).deleteOk p)).length) :=
  ⟨⟨by decide, rfl, rfl, rfl, by decide⟩,
    runSync_success_verdict (by decide) rfl (fun _ => rfl) rfl rfl (by decide)⟩

/-! ### Claim C7: empty-plan short-circuit -/

/-- C7: a run whose computed plan is empty (after the mode gate) skips the
executor and returns success with the fixed up-to-date message and zero
counts. -/
theorem runSync_empty_plan {config : Config} {full : Bool} {env : Env}
    {cache : Option (List FileInfo)} {S : List ImageInfo} {W : List FileInfo}
    (hcfg : configMissing config full = false)
    (hconn : env.connectErr = none)
    (htest : full = true → env.testConnErr = none)
    (hni : (if full then env.getImageListCookie else env.getImageListAPIKey)
      = Except.ok S)
    (hwd : (scanWebdav full env cache).1 = Except.ok W)
    (hup : (diffFiles S (W.map FileInfo.Path)).1 = [])
    (hdel : (if full then (diffFiles S (W.map FileInfo.Path)).2 else []) = []) :
    (RunSync config full env cache).1 =
      { Result.zero with
          Success := true
          Message := "文件已是最新状态，无需同步。"
          TotalNodeImageFiles := S.length
          TotalNodeImageSize := (S.map ImageInfo.Size).sum
          TotalWebDAVFiles := W.length
          TotalWebDAVSize := (W.map FileInfo.Size).sum } := by
  rw [runSync_phase3 hcfg hconn htest hni hwd,
    analyzeAndExecute_empty full env S.length ((S.map ImageInfo.Size).sum)
      S W (some W) hup hdel]

/-- C7 witness: both sides already match, so the plan is empty and the run
short-circuits to the fixed success result. -/
theorem runSync_empty_plan_witness :
    (configMissing cfgAll true = false ∧
      (envOk [imgX] [fileX]).connectErr = none ∧
      ((if true then (envOk [imgX] [fileX]).getImageListCookie
        else (envOk [imgX] [fileX]).getImageListAPIKey) = Except.ok [imgX]) ∧
      (scanWebdav true (envOk [imgX] [fileX]) none).1 = Except.ok [fileX] ∧
      (diffFiles [imgX] ([fileX].map FileInfo.Path)).1 = [] ∧
      (if true then (diffFiles [imgX] ([fileX].map FileInfo.Path)).2 else []) = []) ∧
    (RunSync cfgAll true (envOk [imgX] [fileX]) none).1 =
      { Result.zero with
          Success := true
          Message := "文件已是最新状态，无需同步。"
          TotalNodeImageFiles := [imgX].length
          TotalNodeImageSize := ([imgX].map ImageInfo.Size).sum
          TotalWebDAVFiles := [fileX].length
          TotalWebDAVSize := ([fileX].map FileInfo.Size).sum } :=
  ⟨⟨by decide, rfl, rfl, rfl, by decide, by decide⟩,
    runSync_empty_plan (by decide) rfl (fun _ => rfl) rfl rfl (by decide) (by decide)⟩

/-! ### Claim C10: UploadSize is the planned total, not the achieved one -/

/-- C10: for a run that reaches the executor, `UploadSize` is the sum of
the sizes of all planned upload entries, independent of which uploads
subsequently fail. -/
theorem runSync_uploadSize {config : Config} {full : Bool} {env : Env}
    {cache : Option (List FileInfo)} {S : List ImageInfo} {W : List FileInfo}
    (hcfg : configMissing config full = false)
    (hconn : env.connectErr = none)
    (htest : full = true → env.testConnErr = none)
    (hni : (if full then env.getImageListCookie else env.getImageListAPIKey)
      = Except.ok S)
    (hwd : (scanWebdav full env cache).1 = Except.ok W)
    (hne : ((diffFiles S (W.map FileInfo.Path)).1.isEmpty &&
        (if full then (diffFiles S (W.map FileInfo.Path)).2 else []).isEmpty) = false) :
    (RunSync config full env cache).1.UploadSize =
      ((diffFiles S (W.map FileInfo.Path)).1.map ImageInfo.Size).sum := by
  rw [runSync_phase3 hcfg hconn htest hni hwd]
  exact analyzeAndExecute_uploadSize full env S.length
    ((S.map ImageInfo.Size).sum) S W (some W) hne

/-- C10 witness: one of the two planned uploads fails, yet `UploadSize`
still equals the sum over both planned entries. -/
theorem runSync_uploadSize_witness :
    (configMissing cfgAll false = false ∧
      (envYFail [imgX, imgY] []).connectErr = none ∧
      ((if false then (envYFail [imgX, imgY] []).getImageListCookie
        else (envYFail [imgX, imgY] []).getImageListAPIKey)
        = Except.ok [imgX, imgY]) ∧
      (scanWebdav false (envYFail [imgX, imgY] []) none).1 = Except.ok [] ∧
      ((diffFiles [imgX, imgY] (([] : List FileInfo).map FileInfo.Path)).1.isEmpty &&
        (if false then (diffFiles [imgX, imgY]
          (([] : List FileInfo).map FileInfo.Path)).2 else []).isEmpty) = false) ∧
    (RunSync cfgAll false (envYFail [imgX, imgY] []) none).1.UploadSize =
      ((diffFiles [imgX, imgY] (([] : List FileInfo).map FileInfo.Path)).1.map
        ImageInfo.Size).sum :=
  ⟨⟨by decide, rfl, rfl, rfl, by decide⟩,
    runSync_uploadSize (by decide) rfl (fun h => by simp at h) rfl rfl (by decide)⟩

/-! ### Claim C4: incremental runs discard the delete plan -/

/-- C4: an incremental run never reports a deletion — every return path
has `Deleted = 0` (the computed delete candidates are discarded before
execution) — while the upload plan is acted on normally. -/
theorem runSync_incremental_discards_deletes (config : Config) (env : Env)
    (cache : Option (List FileInfo)) :
    (RunSync config false env cache).1.Deleted = 0 ∧
    (∀ (S : List ImageInfo) (W : List FileInfo),
      configMissing config false = false →
      env.connectErr = none →
      env.getImageListAPIKey = Except.ok S →
      (scanWebdav false env cache).1 = Except.ok W →
      (diffFiles S (W.map FileInfo.Path)).1.isEmpty = false →
      (RunSync config false env cache).1.Uploaded =
        ((diffFiles S (W.map FileInfo.Path)).1.filter
          (fun f => uploadFileOk env f)).length) := by
  constructor
  · rcases runSync_total config false env cache with
      ⟨hcfg, hconn, htest, ⟨S, hni⟩, ⟨W, hwd⟩⟩ | h
    · rw [runSync_phase3 hcfg hconn htest hni hwd]
      exact analyzeAndExecute_deleted_incremental env S.length
        ((S.map ImageInfo.Size).sum) S W (some W)
    · exact h.2.2.1
  · intro S W hcfg hconn hni hwd hne
    have hni' : (if false then env.getImageListCookie else env.getImageListAPIKey)
        = Except.ok S := by simpa using hni
    have hne' : ((diffFiles S (W.map FileInfo.Path)).1.isEmpty &&
        (if false then (diffFiles S (W.map FileInfo.Path)).2 else []).isEmpty)
        = false := by simp [hne]
    rw [runSync_phase3 hcfg hconn (fun h => by simp at h) hni' hwd]
    exact analyzeAndExecute_uploaded false env S.length
      ((S.map ImageInfo.Size).sum) S W (some W) hne'

/-- C4 witness: incremental run with one missing upload and one stale
destination file — the stale file is not deleted, the upload is counted. -/
theorem runSync_incremental_discards_deletes_witness :
    (configMissing cfgAll false = false ∧
      (envOk [imgX, imgY] [fileX, fileStale]).connectErr = none ∧
      (envOk [imgX, imgY] [fileX, fileStale]).getImageListAPIKey
        = Except.ok [imgX, imgY] ∧
      (scanWebdav false (envOk [imgX, imgY] [fileX, fileStale]) none).1
        = Except.ok [fileX, fileStale] ∧
      (diffFiles [imgX, imgY] ([fileX, fileStale].map FileInfo.Path)).1.isEmpty
        = false) ∧
    ((RunSync cfgAll false (envOk [imgX, imgY] [fileX, fileStale]) none).1.Deleted = 0 ∧
      (RunSync cfgAll false (envOk [imgX, imgY] [fileX, fileStale]) none).1.Uploaded =
        ((diffFiles [imgX, imgY] ([fileX, fileStale].map FileInfo.Path)).1.filter
          (fun f => uploadFileOk (envOk [imgX, imgY] [fileX, fileStale]) f)).length) :=
  ⟨⟨by decide, rfl, rfl, rfl, by decide⟩,
    ⟨(runSync_incremental_discards_deletes cfgAll
        (envOk [imgX, imgY] [fileX, fileStale]) none).1,
      (runSync_incremental_discards_deletes cfgAll
        (envOk [imgX, imgY] [fileX, fileStale]) none).2
        [imgX, imgY] [fileX, fileStale] (by decide) rfl rfl rfl (by decide)⟩⟩

/-! ### Claim C5: cache invalidation after the run -/

/-- C5, counterexample: a full run whose fresh destination listing fails
performs zero mutations yet ends with an empty cache — the previously
cached snapshot (`some [fileX]`) is not left in place, refuting the
claimed "cleared iff at least one successful mutation". -/
theorem runSync_cache_claim_counterexample :
    ¬ (∀ (config : Config) (full : Bool) (env : Env) (W0 : List FileInfo),
        (RunSync config full env (some W0)).1.Uploaded = 0 →
        (RunSync config full env (some W0)).1.Deleted = 0 →
        (RunSync config full env (some W0)).2 = some W0) := by
  intro h
  have hc := h cfgAll true envWdFail [fileX] (by decide) (by decide)
  exact absurd hc (by decide)

/-- C5 (amended: restricted to runs that complete the destination listing
step — a full run aborting on a failed fresh listing has already dropped
the snapshot): the cache is empty after the run iff at least one mutation
(upload or delete) succeeded, and a run with zero successful mutations
ends with the snapshot it listed still cached.  The invalidation is the
last step of the modelled executor, after all per-item outcomes are
accumulated (the join point of the worker pool). -/
theorem runSync_cache_invalidation {config : Config} {full : Bool} {env : Env}
    {cache : Option (List FileInfo)} {S : List ImageInfo} {W : List FileInfo}
    (hcfg : configMissing config full = false)
    (hconn : env.connectErr = none)
    (htest : full = true → env.testConnErr = none)
    (hni : (if full then env.getImageListCookie else env.getImageListAPIKey)
      = Except.ok S)
    (hwd : (scanWebdav full env cache).1 = Except.ok W) :
    ((RunSync config full env cache).2 = none ↔
      0 < (RunSync config full env cache).1.Uploaded +
        (RunSync config full env cache).1.Deleted) ∧
    ((RunSync config full env cache).1.Uploaded +
        (RunSync config full env cache).1.Deleted = 0 →
      (RunSync config full env cache).2 = some W) := by
  rw [runSync_phase3 hcfg hconn htest hni hwd]
  by_cases hne : ((diffFiles S (W.map FileInfo.Path)).1.isEmpty &&
      (if full then (diffFiles S (W.map FileInfo.Path)).2 else []).isEmpty) = true
  · have hup : (diffFiles S (W.map FileInfo.Path)).1 = [] := by
      rw [Bool.and_eq_true] at hne
      simpa [List.isEmpty_iff] using hne.1
    have hdel : (if full then (diffFiles S (W.map FileInfo.Path)).2 else []) = [] := by
      rw [Bool.and_eq_true] at hne
      simpa [List.isEmpty_iff] using hne.2
    rw [analyzeAndExecute_empty full env S.length ((S.map ImageInfo.Size).sum)
      S W (some W) hup hdel]
    simp [Result.zero]
  · rw [Bool.not_eq_true] at hne
    have hu := analyzeAndExecute_uploaded full env S.length
      ((S.map ImageInfo.Size).sum) S W (some W) hne
    have hd := analyzeAndExecute_deleted full env S.length
      ((S.map ImageInfo.Size).sum) S W (some W) hne
    have hc := analyzeAndExecute_cache full env S.length
      ((S.map ImageInfo.Size).sum) S W (some W) hne
    rw [hu, hd, hc]
    set L := (if full = true then (diffFiles S (W.map FileInfo.Path)).2 else [])
      with hL
    split_ifs with hpos
    · constructor
      · constructor
        · intro _
          omega
        · intro _
          rfl
      · intro h0
        exact absurd h0 (by omega)
    · push_neg at hpos
      constructor
      · constructor
        · intro hcon
          exact absurd hcon (by simp)
        · intro hcon
          omega
      · intro _
        rfl

/-- C5 witness: a full run deleting one stale file ends with an empty
cache; the amended iff and the zero-mutation clause hold at this input. -/
theorem runSync_cache_invalidation_witness :
    (configMissing cfgAll true = false ∧
      (envOk [] [fileStale]).connectErr = none ∧
      ((if true then (envOk [] [fileStale]).getImageListCookie
        else (envOk [] [fileStale]).getImageListAPIKey) = Except.ok []) ∧
      (scanWebdav true (envOk [] [fileStale]) none).1 = Except.ok [fileStale]) ∧
    (((RunSync cfgAll true (envOk [] [fileStale]) none).2 = none ↔
      0 < (RunSync cfgAll true (envOk [] [fileStale]) none).1.Uploaded +
        (RunSync cfgAll true (envOk [] [fileStale]) none).1.Deleted) ∧
    ((RunSync cfgAll true (envOk [] [fileStale]) none).1.Uploaded +
        (RunSync cfgAll true (envOk [] [fileStale]) none).1.Deleted = 0 →
      (RunSync cfgAll true (envOk [] [fileStale]) none).2 = some [fileStale])) :=
  ⟨⟨by decide, rfl, rfl, rfl⟩,
    runSync_cache_invalidation (by decide) rfl (fun _ => rfl) rfl rfl⟩

/-! ### Claim C6: full runs never serve the destination listing from cache -/

/-- C6: a full run's result does not depend on the cached snapshot (the
cache is invalidated before it is consulted), and when the fresh
destination listing fails the full run fails even though a cached snapshot
exists. -/
theorem runSync_full_fresh_listing (config : Config) (env : Env)
    (cache : Option (List FileInfo)) :
    (RunSync config true env cache).1 = (RunSync config true env none).1 ∧
    (∀ e, env.listWebdav = Except.error e →
      (RunSync config true env cache).1.Success = false) := by
  constructor
  · cases h1 : configMissing config true <;>
      cases h2 : env.connectErr <;>
      cases h3 : env.testConnErr <;>
      cases h4 : env.getImageListCookie <;>
      cases h5 : env.listWebdav <;>
        simp [RunSync, scanWebdav, h1, h2, h3, h4, h5]
  · intro e he
    rcases runSync_total config true env cache with
      ⟨hcfg, hconn, htest, ⟨S, hni⟩, ⟨W, hwd⟩⟩ | h
    · have hsc : (scanWebdav true env cache).1 = Except.error e := by
        simp [scanWebdav, he]
      rw [hsc] at hwd
      exact absurd hwd (by simp)
    · exact h.1

/-- C6 witness: with a cached snapshot present but a failing destination
listing, the full run fails and behaves as if the cache were empty. -/
theorem runSync_full_fresh_listing_witness :
    (envWdFail.listWebdav = Except.error "host unreachable") ∧
    ((RunSync cfgAll true envWdFail (some [fileX])).1 =
      (RunSync cfgAll true envWdFail none).1 ∧
      (RunSync cfgAll true envWdFail (some [fileX])).1.Success = false) :=
  ⟨rfl,
    ⟨(runSync_full_fresh_listing cfgAll envWdFail (some [fileX])).1,
      (runSync_full_fresh_listing cfgAll envWdFail (some [fileX])).2
        "host unreachable" rfl⟩⟩

/-! ### Claim C8: fatal pre-run failures abort with no partial counts -/

/-- C8: if a required configuration item for the selected mode is missing,
or the connectivity check or either initial listing fails, the run aborts
before any transfer: the result has `Success = false`, a non-empty
message, an error, and zero `Uploaded`/`Deleted` counts. -/
theorem runSync_fatal_abort {config : Config} {full : Bool} {env : Env}
    {cache : Option (List FileInfo)}
    (h : configMissing config full = true ∨ env.connectErr.isSome = true ∨
      (full = true ∧ env.testConnErr.isSome = true) ∨
      (∃ e, (if full then env.getImageListCookie else env.getImageListAPIKey)
        = Except.error e) ∨
      (∃ e, (scanWebdav full env cache).1 = Except.error e)) :
    (RunSync config full env cache).1.Success = false ∧
    (RunSync config full env cache).1.Uploaded = 0 ∧
    (RunSync config full env cache).1.Deleted = 0 ∧
    (RunSync config full env cache).1.ErrMsg.isSome = true ∧
    (RunSync config full env cache).1.Message ≠ "" := by
  rcases runSync_total config full env cache with
    ⟨hcfg, hconn, htest, ⟨S, hni⟩, ⟨W, hwd⟩⟩ | hr
  · exfalso
    rcases h with h | h | ⟨hf, ht⟩ | ⟨e, he⟩ | ⟨e, he⟩
    · rw [hcfg] at h
      exact Bool.false_ne_true h
    · rw [hconn] at h
      simp at h
    · rw [htest hf] at ht
      simp at ht
    · rw [hni] at he
      simp at he
    · rw [hwd] at he
      simp at he
  · exact hr

/-- C8 witness: full mode with the cookie missing aborts with a failure
result and zero counts. -/
theorem runSync_fatal_abort_witness :
    (configMissing { cfgAll with NodeImageCookie := "" } true = true ∨
      (envOk [] []).connectErr.isSome = true ∨
      (true = true ∧ (envOk [] []).testConnErr.isSome = true) ∨
      (∃ e, (if true then (envOk [] []).getImageListCookie
        else (envOk [] []).getImageListAPIKey) = Except.error e) ∨
      (∃ e, (scanWebdav true (envOk [] []) none).1 = Except.error e)) ∧
    ((RunSync { cfgAll with NodeImageCookie := "" } true (envOk [] []) none).1.Success
        = false ∧
      (RunSync { cfgAll with NodeImageCookie := "" } true (envOk [] []) none).1.Uploaded
        = 0 ∧
      (RunSync { cfgAll with NodeImageCookie := "" } true (envOk [] []) none).1.Deleted
        = 0 ∧
      (RunSync { cfgAll with NodeImageCookie := "" } true (envOk [] []) none).1.ErrMsg.isSome
        = true ∧
      (RunSync { cfgAll with NodeImageCookie := "" } true (envOk [] []) none).1.Message
        ≠ "") :=
  ⟨Or.inl (by decide), runSync_fatal_abort (Or.inl (by decide))⟩

/-! ### Claim C9: single-flight run lock -/

/-- C9: at most one reconciliation run is ever active (every reachable
lock state has at most one holder); a trigger that arrives while the lock
is held is rejected in place — the lock state is unchanged (nothing is
queued) — and `runSync` returns immediately with the skipped outcome,
starting no run and touching no state. -/
theorem runSync_single_flight (n : Nat) (h : LockReach n) :
    n ≤ 1 ∧
    (1 ≤ n → (triggerStep n).2 = false ∧ (triggerStep n).1 = n) ∧
    (∀ (config : Config) (full : Bool) (env : Env)
      (cache : Option (List FileInfo)),
      (runSyncMain true config full env cache).1 = TriggerOutcome.skipped ∧
      (runSyncMain true config full env cache).2 = cache) := by
  refine ⟨?_, ?_, ?_⟩
  · induction h with
    | init => omega
    | trigger hr ih =>
      unfold triggerStep
      split_ifs <;> simp <;> omega
    | finish hr ih =>
      unfold finishStep
      omega
  · intro h1
    unfold triggerStep
    rw [if_neg (by omega)]
    exact ⟨rfl, rfl⟩
  · intro config full env cache
    exact ⟨rfl, rfl⟩

/-- C9 witness: from the state with one active run (reached by one
accepted trigger), a second trigger is rejected and skipped. -/
theorem runSync_single_flight_witness :
    LockReach 1 ∧
    (1 ≤ 1 ∧
      (1 ≤ 1 → (triggerStep 1).2 = false ∧ (triggerStep 1).1 = 1) ∧
      (∀ (config : Config) (full : Bool) (env : Env)
        (cache : Option (List FileInfo)),
        (runSyncMain true config full env cache).1 = TriggerOutcome.skipped ∧
        (runSyncMain true config full env cache).2 = cache)) :=
  ⟨LockReach.trigger LockReach.init,
    runSync_single_flight 1 (LockReach.trigger LockReach.init)⟩

end NodeimageWebdav
